import Mathlib

/-!
# YogaSMC: EC sensor polling, power gating and the VirtualSMC handshake

A shallow embedding of `YogaSMC/YogaSMC.cpp`.  The driver object is a record of
the fields the functions read and write; every member function becomes a pure
function on that record which also returns the list of calls it made on its
collaborators (the EC, the timer, the work loop, the aggregator).  Pointer
dereferences and array accesses that C++ leaves undefined are explicit faults.
-/

namespace YogaSMC

/-! ## IOKit vocabulary -/

/-- IOKit result codes (`IOReturn`, a 32-bit integer). -/
abbrev IOReturn := Nat

def kIOReturnSuccess : IOReturn := 0
def kIOReturnInvalid : IOReturn := 0xe0000001
def kIOReturnUnsupported : IOReturn := 0xe00002c7
def kIOPMAckImplied : IOReturn := 0

/-- SMC key identifier: four bytes packed most significant first, so that the
numeric order is the byte-wise order of the four characters. -/
abbrev SMC_KEY := Nat

/-- Constants of `YogaSMC.hpp`, which is not among the sources; they are kept
abstract. -/
structure Consts where
  POLLING_INTERVAL : Nat
  MAX_SENSOR : Nat
deriving Repr

/-- The periodic timer (`IOTimerEventSource`): whether it is enabled and the
timeout it is armed with, if any. -/
structure IOTimerEventSource where
  enabled : Bool
  timeout : Option Nat
deriving DecidableEq, Repr

/-- Wire type of a key value: `atomicSpDeciKelvinKey` or `atomicSpKey`. -/
inductive SensorType where
  | atomicSpDeciKelvinKey
  | atomicSpKey
deriving DecidableEq, Repr

/-- One entry of `vsmcPlugin.data`: the key, and the `currentSensor` cell its
value is read from. -/
structure VirtualSMCKeyValue where
  key : SMC_KEY
  slot : Nat
  type : SensorType
deriving DecidableEq, Repr

/-- What goes wrong where C++ has no defined behaviour, plus exhaustion of the
iteration budget of a loop. -/
inductive Fault where
  | nullDeref
  | outOfRange (idx : Int)
  | fuel
deriving DecidableEq, Repr

/-- Calls the driver makes on its collaborators, in program order. -/
inductive Effect where
  | evaluateInteger (idx : Int) (method : String) (ret : IOReturn) (result : Nat)
  | store (idx : Int) (value : Nat)
  | setTimeoutMS (ms : Nat)
  | enable
  | disable
  | addEventSource (ret : IOReturn)
  | removeEventSource
  | release
  | validateEC
  | addKey (key : SMC_KEY)
  | qsort
  | setProperty (name : String) (value : Option Nat)
  | registerHandler (table : List SMC_KEY)
  | registerService
  | terminate
  | superStop
  | callPlatformFunction (ret : IOReturn)
  | DBGLOG (msg : String)
  | SYSLOG (msg : String)
deriving DecidableEq, Repr

/-- The fields of a `YogaSMC` instance that the functions of the file use.
`conf` and `ec` record whether the pointers are non-null, `attached` whether the
work loop currently holds `poller`. -/
structure Driver where
  conf : Bool
  ec : Bool
  ECSensorBase : Nat
  sensorCount : Nat
  sensorMethods : List String
  currentSensor : List Nat
  awake : Bool
  poller : Option IOTimerEventSource
  attached : Bool
  vsmcPlugin : List VirtualSMCKeyValue
  vsmcNotifier : Bool
deriving DecidableEq, Repr

/-- The embedded controller: `evaluateInteger` answers a method name with a
result code and the value left in `*result`, and may change its own state. -/
structure ECDevice (σ : Type) where
  evaluateInteger : σ → String → IOReturn × Nat × σ

/-- Read of `xs[i]` for a C array of `xs.length` cells and a signed index. -/
def arrayGet {α : Type} (xs : List α) (i : Int) : Option α :=
  if 0 ≤ i then xs[i.toNat]? else none

/-- Write of `xs[i] = v` for a C array of `xs.length` cells and a signed index. -/
def arraySet {α : Type} (xs : List α) (i : Int) (v : α) : Option (List α) :=
  if 0 ≤ i ∧ i.toNat < xs.length then some (xs.set i.toNat v) else none

/-! ## `YogaSMC::updateEC` -/

/-- Put the effects of one iteration in front of the log of the rest of the loop. -/
def logCons {σ : Type} (es : List Effect) :
    Except Fault (σ × Driver × List Effect) → Except Fault (σ × Driver × List Effect)
  | .error f => .error f
  | .ok (st, s, log) => .ok (st, s, es ++ log)

/-- The loop `for (UInt8 i = ...; i < sensorCount; i++)` of `updateEC`, from the
test of `i` onwards; `i` is the 8-bit counter, the index used is `i-1` computed
in `int`. -/
def updateECLoop {σ : Type} (dev : ECDevice σ) :
    Nat → Nat → σ → Driver → Except Fault (σ × Driver × List Effect)
  | 0, _, _, _ => .error .fuel
  | fuel + 1, i, st, s =>
    if i < s.sensorCount then
      match arrayGet s.sensorMethods ((i : Int) - 1) with
      | none => .error (.outOfRange ((i : Int) - 1))
      | some method =>
        if s.ec = false then .error .nullDeref
        else
          let r := dev.evaluateInteger st method
          if r.1 = kIOReturnSuccess ∧ r.2.1 ≠ 0 then
            match arraySet s.currentSensor ((i : Int) - 1) r.2.1 with
            | none => .error (.outOfRange ((i : Int) - 1))
            | some cs =>
              logCons [.evaluateInteger ((i : Int) - 1) method r.1 r.2.1,
                       .store ((i : Int) - 1) r.2.1]
                (updateECLoop dev fuel ((i + 1) % 256) r.2.2 { s with currentSensor := cs })
          else
            logCons [.evaluateInteger ((i : Int) - 1) method r.1 r.2.1]
              (updateECLoop dev fuel ((i + 1) % 256) r.2.2 s)
    else .ok (st, s, [])

/-- The function `YogaSMC::updateEC`: one sweep over the EC sensors, then re-arm the timer.
The counter has 256 values, so 257 tests of it are the most the loop can make
before it leaves or faults (`updateECLoop_fuel`). -/
def updateEC {σ : Type} (c : Consts) (dev : ECDevice σ) (st : σ) (s : Driver) :
    Except Fault (σ × Driver × List Effect) :=
  match updateECLoop dev 257 (s.ECSensorBase % 256) st s with
  | .error f => .error f
  | .ok (st1, s1, log) =>
    match s1.poller with
    | none => .error .nullDeref
    | some t =>
      .ok (st1, { s1 with poller := some { t with timeout := some c.POLLING_INTERVAL } },
           log ++ [.setTimeoutMS c.POLLING_INTERVAL])

/-! ## The sensor catalog and `YogaSMC::addVSMCKey` -/

/-- Row of a preset table (`struct sensorPair`). -/
structure sensorPair where
  key : SMC_KEY
  name : String
deriving DecidableEq, Repr

/-- Modelled from the spec: the key constants (`KeyTB0T`, `KeyTCSA`, ...) are
declared in a header that is not among the sources.  A key is the "4-character
code + instance index" its name spells, compared "byte-wise on the identifier":
the four characters are packed most significant first. -/
def SMC_MAKE_IDENTIFIER (a b c d : Char) : SMC_KEY :=
  ((a.toNat * 256 + b.toNat) * 256 + c.toNat) * 256 + d.toNat

/-- Modelled from the spec: the character that stands for instance index `i`
in a key ("TB0T(0)" is the key `TB0T`). -/
def KeyIndexes (i : Nat) : Char :=
  "0123456789ABCDEFGHIJKLMNOPQRSTUVWXYZ".toList.getD i '0'

def KeyTB0T (i : Nat) : SMC_KEY := SMC_MAKE_IDENTIFIER 'T' 'B' (KeyIndexes i) 'T'
def KeyTCSA : SMC_KEY := SMC_MAKE_IDENTIFIER 'T' 'C' 'S' 'A'
def KeyTCXC : SMC_KEY := SMC_MAKE_IDENTIFIER 'T' 'C' 'X' 'C'
def KeyTM0P : SMC_KEY := SMC_MAKE_IDENTIFIER 'T' 'M' '0' 'P'
def KeyTM0p (i : Nat) : SMC_KEY := SMC_MAKE_IDENTIFIER 'T' 'M' (KeyIndexes i) 'p'
def KeyTPCD : SMC_KEY := SMC_MAKE_IDENTIFIER 'T' 'P' 'C' 'D'
def KeyTW0P : SMC_KEY := SMC_MAKE_IDENTIFIER 'T' 'W' '0' 'P'
def KeyTaLC : SMC_KEY := SMC_MAKE_IDENTIFIER 'T' 'a' 'L' 'C'
def KeyTaRC : SMC_KEY := SMC_MAKE_IDENTIFIER 'T' 'a' 'R' 'C'
def KeyTh0H (i : Nat) : SMC_KEY := SMC_MAKE_IDENTIFIER 'T' 'h' (KeyIndexes i) 'H'
def KeyTs0P (i : Nat) : SMC_KEY := SMC_MAKE_IDENTIFIER 'T' 's' (KeyIndexes i) 'P'

def presetTemperatureDeciKelvin : List sensorPair :=
  [ ⟨KeyTB0T 0, "Battery"⟩,
    ⟨KeyTB0T 1, "Battery Sensor 1"⟩,
    ⟨KeyTB0T 2, "Battery Sensor 2"⟩ ]

def presetTemperature : List sensorPair :=
  [ ⟨KeyTCSA, "CPU System Agent Core"⟩,
    ⟨KeyTCXC, "CPU Core PECI"⟩,
    ⟨KeyTM0P, "Memory Proximity"⟩,
    ⟨KeyTM0p 0, "SO-DIMM 1 Proximity"⟩,
    ⟨KeyTM0p 1, "SO-DIMM 2 Proximity"⟩,
    ⟨KeyTM0p 2, "SO-DIMM 3 Proximity"⟩,
    ⟨KeyTM0p 3, "SO-DIMM 4 Proximity"⟩,
    ⟨KeyTPCD, "Platform Controller Hub Die"⟩,
    ⟨KeyTW0P, "Airport Proximity"⟩,
    ⟨KeyTaLC, "Airflow Left"⟩,
    ⟨KeyTaRC, "Airflow Right"⟩,
    ⟨KeyTh0H 1, "Fin Stack Proximity Right"⟩,
    ⟨KeyTh0H 2, "Fin Stack Proximity Left"⟩,
    ⟨KeyTs0P 0, "Palm Rest"⟩,
    ⟨KeyTs0P 1, "Trackpad Actuator"⟩ ]

/-- Modelled from the spec: `addECKeySp` is defined in `YogaSMC.hpp`, which is
not among the sources.  It "allocates the next free value slot and constructs a
SensorKeyEntry with typeTag selected by unitKind": the entry is appended to
`vsmcPlugin.data`, the cell `currentSensor[sensorCount]` is its value, the
method goes to `sensorMethods[sensorCount]` and `sensorCount` advances.  A slot
is taken only while one is free, and only for a name for which `lookup` (the
`conf` dictionary, checked against the EC) has a method. -/
def addECKeySp (c : Consts) (lookup : String → Option String) (key : SMC_KEY) (name : String)
    (type : SensorType) (acc : Driver × List Effect) : Driver × List Effect :=
  if acc.1.sensorCount < c.MAX_SENSOR then
    match lookup name with
    | none => acc
    | some method =>
      ({ acc.1 with
           currentSensor := acc.1.currentSensor.set acc.1.sensorCount 0
           vsmcPlugin := acc.1.vsmcPlugin ++ [⟨key, acc.1.sensorCount, type⟩]
           sensorMethods := acc.1.sensorMethods.set acc.1.sensorCount method
           sensorCount := acc.1.sensorCount + 1 },
       acc.2 ++ [.addKey key])
  else acc

/-- The function `YogaSMC::addVSMCKey`, with the two preset tables as arguments so that the
order of their rows can vary. -/
def addVSMCKey (c : Consts) (lookup : String → Option String)
    (tableDeciKelvin table : List sensorPair) (s : Driver) : Driver × List Effect :=
  if s.conf = false ∨ s.ec = false then (s, [])
  else
    let s0 : Driver × List Effect := ({ s with ECSensorBase := s.sensorCount }, [])
    let s1 := tableDeciKelvin.foldl
      (fun acc pair => addECKeySp c lookup pair.key pair.name .atomicSpDeciKelvinKey acc) s0
    let s2 := table.foldl
      (fun acc pair => addECKeySp c lookup pair.key pair.name .atomicSpKey acc) s1
    (s2.1, s2.2 ++ [.setProperty "DirectECKey" none])

/-! ## `YogaSMC::start` and `YogaSMC::stop` -/

/-- Modelled from the spec: `VirtualSMCKeyValue::compare` is not among the
sources; entries are "totally ordered by keyId using a well-defined comparison
(byte-wise on the identifier)". -/
def VirtualSMCKeyValue.compare (a b : VirtualSMCKeyValue) : Int :=
  if a.key < b.key then -1 else if a.key = b.key then 0 else 1

/-- The C library `qsort` with the comparator above: the entries in ascending
order of `compare`. -/
def qsort (data : List VirtualSMCKeyValue) : List VirtualSMCKeyValue :=
  data.insertionSort (fun a b => VirtualSMCKeyValue.compare a b ≤ 0)

/-- What the surroundings answer during one call of `start`: the base class
`start`, whether `initPoller` returned a timer, the result of
`workLoop->addEventSource`, and the `conf` dictionary seen by `addECKeySp`. -/
structure StartEnv where
  superStart : Bool
  initPoller : Bool
  addEventSource : IOReturn
  lookup : String → Option String

/-- Modelled from the spec: `initPoller` belongs to the base class, which is not
among the sources; it is the step "create timer event source", and the timer it
returns is neither attached, armed nor enabled. -/
def initPoller (env : StartEnv) : Option IOTimerEventSource :=
  if env.initPoller then some ⟨false, none⟩ else none

/-- The function `YogaSMC::start`. -/
def start (c : Consts) (env : StartEnv) (tableDeciKelvin table : List sensorPair)
    (s : Driver) : Bool × Driver × List Effect :=
  if env.superStart = false then (false, s, [])
  else
    let s1 := { s with awake := true }
    match initPoller env with
    | none => (false, { s1 with poller := none, attached := false }, [.validateEC])
    | some t =>
      if env.addEventSource ≠ kIOReturnSuccess then
        (false, { s1 with poller := some t, attached := false },
         [.validateEC, .addEventSource env.addEventSource])
      else
        let s2 := { s1 with poller := some t, attached := true }
        let k := addVSMCKey c env.lookup tableDeciKelvin table s2
        let s3 := { k.1 with vsmcPlugin := qsort k.1.vsmcPlugin }
        let s4 := { s3 with vsmcNotifier := true }
        let s5 := { s4 with
          poller := some { t with timeout := some c.POLLING_INTERVAL, enabled := true } }
        (true, s5,
         [.validateEC, .addEventSource env.addEventSource] ++ k.2 ++
         [.qsort, .setProperty "Status" (some s3.vsmcPlugin.length),
          .registerHandler (s3.vsmcPlugin.map (fun kv => kv.key)),
          .setTimeoutMS c.POLLING_INTERVAL, .enable, .registerService])

/-- The function `YogaSMC::stop`. -/
def stop (s : Driver) : Except Fault (Driver × List Effect) :=
  match s.poller with
  | none => .error .nullDeref
  | some _ =>
    .ok ({ s with poller := none, attached := false },
         [.disable, .removeEventSource, .release, .terminate, .superStop])

/-! ## `YogaSMC::vsmcNotificationHandler` -/

/-- The candidate aggregator passed to the handler: its answer to
`callPlatformFunction(VirtualSMCAPI::SubmitPlugin, ...)` for a plugin table. -/
structure IOService where
  callPlatformFunction : List VirtualSMCKeyValue → IOReturn

/-- The function `YogaSMC::vsmcNotificationHandler`: `sensors` is the driver behind the
identity pointer, `vsmc` the aggregator, each absent when the pointer is null. -/
def vsmcNotificationHandler (sensors : Option Driver) (vsmc : Option IOService) :
    Bool × List Effect :=
  match sensors, vsmc with
  | some self, some v =>
    let ret := v.callPlatformFunction self.vsmcPlugin
    if ret = kIOReturnSuccess then
      (true, [.DBGLOG "got vsmc notification", .callPlatformFunction ret,
              .DBGLOG "submitted plugin"])
    else if ret ≠ kIOReturnUnsupported then
      (false, [.DBGLOG "got vsmc notification", .callPlatformFunction ret,
               .SYSLOG "plugin submission failure"])
    else
      (false, [.DBGLOG "got vsmc notification", .callPlatformFunction ret,
               .DBGLOG "plugin submission to non vsmc"])
  | _, _ => (false, [.SYSLOG "got null vsmc notification"])

/-! ## `YogaSMC::setPowerState` -/

/-- The function `YogaSMC::setPowerState`; `superRet` is what the base class returns and
`addRet` what `workLoop->addEventSource` returns if it is called. -/
def setPowerState (c : Consts) (superRet addRet : IOReturn) (powerStateOrdinal : Nat)
    (s : Driver) : Except Fault (IOReturn × Driver × List Effect) :=
  if superRet ≠ kIOPMAckImplied then .ok (kIOReturnInvalid, s, [])
  else if powerStateOrdinal = 0 then
    if s.awake then
      match s.poller with
      | none => .error .nullDeref
      | some t =>
        .ok (kIOPMAckImplied,
             { s with poller := some { t with enabled := false }, attached := false,
                      awake := false },
             [.disable, .removeEventSource])
    else .ok (kIOPMAckImplied, s, [])
  else
    if s.awake = false then
      match s.poller with
      | none => .error .nullDeref
      | some _ =>
        .ok (kIOPMAckImplied,
             { s with awake := true
                      attached := if addRet = kIOReturnSuccess then true else s.attached
                      poller := some ⟨true, some c.POLLING_INTERVAL⟩ },
             [.addEventSource addRet, .setTimeoutMS c.POLLING_INTERVAL, .enable])
    else .ok (kIOPMAckImplied, s, [])

/-! ## Life cycle -/

/-- Modelled from the spec: the member initialisers are in `YogaSMC.hpp`, which
is not among the sources.  Before `start` the polling state is unset, there is
no timer and the key table is empty; `withDevice` has set `conf` and `ec`. -/
def fresh (c : Consts) (conf ec : Bool) : Driver :=
  { conf := conf, ec := ec, ECSensorBase := 0, sensorCount := 0,
    sensorMethods := List.replicate c.MAX_SENSOR "",
    currentSensor := List.replicate c.MAX_SENSOR 0,
    awake := false, poller := none, attached := false, vsmcPlugin := [],
    vsmcNotifier := false }

/-- An EC that answers every method with success and the same value. -/
def constEC (v : Nat) : ECDevice Unit := ⟨fun _ _ => (kIOReturnSuccess, v, ())⟩

/-- An EC whose answers follow a script, one per call; past its end every
evaluation fails. -/
def scriptEC : ECDevice (List (IOReturn × Nat)) :=
  ⟨fun script _ =>
    match script with
    | [] => (kIOReturnInvalid, 0, [])
    | a :: rest => (a.1, a.2, rest)⟩

/-! ## Runs: concrete drivers, the host delivering calls, and what is observed -/

/-- Constants used by the concrete runs below. -/
def exampleConsts : Consts := ⟨2000, 4⟩

/-- A running driver with four sensor cells, of which cells 0 to 2 are the
ones the sweep with `ECSensorBase = 1`, `sensorCount = 4` visits. -/
def exampleRunning : Driver :=
  { fresh exampleConsts true true with
    ECSensorBase := 1, sensorCount := 4, currentSensor := [11, 22, 33, 44],
    poller := some ⟨true, none⟩, attached := true, awake := true }

/-- The submission calls (`callPlatformFunction` with `SubmitPlugin`) in a
log. -/
def submissions (log : List Effect) : List Effect :=
  log.filter (fun e => match e with
    | .callPlatformFunction _ => true
    | _ => false)

/-- The host delivers a sequence of notifications: the handler runs once per
notification, with the arguments of that notification. -/
def deliver (notes : List (Option Driver × Option IOService)) : List (Bool × List Effect) :=
  notes.map (fun n => vsmcNotificationHandler n.1 n.2)

/-- All calls made over a sequence of deliveries, in order. -/
def deliveredLog (notes : List (Option Driver × Option IOService)) : List Effect :=
  (deliver notes).flatMap (fun r => r.2)

/-- A notification with a non-null identity and a non-null aggregator whose
submission call returns success. -/
def eligible (n : Option Driver × Option IOService) : Bool :=
  match n.1, n.2 with
  | some self, some v => decide (v.callPlatformFunction self.vsmcPlugin = kIOReturnSuccess)
  | _, _ => false

/-- An aggregator that accepts every submission. -/
def acceptingVSMC : IOService := ⟨fun _ => kIOReturnSuccess⟩

/-- A driver asleep after a successful start: timer present, disabled,
detached. -/
def exampleAsleep : Driver :=
  { fresh exampleConsts true true with poller := some ⟨false, some 2000⟩, awake := false }

/-- The environment of a start in which everything succeeds and every sensor
name has a method in `conf`. -/
def goodEnv : StartEnv := ⟨true, true, kIOReturnSuccess, fun name => some name⟩

/-- One call the host makes on the driver, with what the surroundings answer
during it. -/
inductive Event : Type 1 where
  | start (env : StartEnv) (tableDeciKelvin table : List sensorPair)
  | setPowerState (superRet addRet : IOReturn) (powerStateOrdinal : Nat)
  | updateEC (σ : Type) (dev : ECDevice σ) (st : σ)
  | stop

/-- The driver after one event; `none` when the call faults. -/
def step (c : Consts) (s : Driver) : Event → Option Driver
  | .start env tableDeciKelvin table => some (start c env tableDeciKelvin table s).2.1
  | .setPowerState superRet addRet powerStateOrdinal =>
    match setPowerState c superRet addRet powerStateOrdinal s with
    | .ok r => some r.2.1
    | .error _ => none
  | .updateEC _ dev st =>
    match updateEC c dev st s with
    | .ok r => some r.2.1
    | .error _ => none
  | .stop =>
    match stop s with
    | .ok r => some r.1
    | .error _ => none

/-- The driver after a sequence of events. -/
def run (c : Consts) : Driver → List Event → Option Driver
  | s, [] => some s
  | s, e :: es =>
    match step c s e with
    | none => none
    | some s1 => run c s1 es

/-- The timer is not enabled while detached from the work loop. -/
def timerInvariant (s : Driver) : Bool :=
  match s.poller with
  | none => true
  | some t => !t.enabled || s.attached

/-- The keys of a table, in table order. -/
def keysOf (data : List VirtualSMCKeyValue) : List SMC_KEY :=
  data.map (fun kv => kv.key)

/-- The keys of the rows of a preset table. -/
def rowKeys (rows : List sensorPair) : List SMC_KEY :=
  rows.map (fun p => p.key)

/-! ## Lemmas on the polling loop -/

theorem logCons_ok {σ : Type} (es : List Effect) (r : Except Fault (σ × Driver × List Effect))
    (st : σ) (s : Driver) (log : List Effect) (h : logCons es r = .ok (st, s, log)) :
    ∃ log1, r = .ok (st, s, log1) ∧ log = es ++ log1 := by
  cases r with
  | error f => simp [logCons] at h
  | ok x =>
    obtain ⟨a, b, l⟩ := x
    simp only [logCons, Except.ok.injEq, Prod.mk.injEq] at h
    obtain ⟨rfl, rfl, rfl⟩ := h
    exact ⟨l, rfl, rfl⟩

/-- One iteration of the loop, read backwards from a successful result. -/
theorem updateECLoop_ok_inv {σ : Type} (dev : ECDevice σ) (fuel i : Nat) (st st1 : σ)
    (s s1 : Driver) (log : List Effect)
    (h : updateECLoop dev (fuel + 1) i st s = .ok (st1, s1, log)) :
    (¬ i < s.sensorCount ∧ st1 = st ∧ s1 = s ∧ log = []) ∨
    (i < s.sensorCount ∧ s.ec = true ∧ ∃ method, arrayGet s.sensorMethods ((i : Int) - 1) = some method ∧
      ((((dev.evaluateInteger st method).1 = kIOReturnSuccess ∧
          (dev.evaluateInteger st method).2.1 ≠ 0) ∧
        ∃ cs log1,
          arraySet s.currentSensor ((i : Int) - 1) (dev.evaluateInteger st method).2.1 = some cs ∧
          updateECLoop dev fuel ((i + 1) % 256) (dev.evaluateInteger st method).2.2
            { s with currentSensor := cs } = .ok (st1, s1, log1) ∧
          log = [.evaluateInteger ((i : Int) - 1) method (dev.evaluateInteger st method).1
                   (dev.evaluateInteger st method).2.1,
                 .store ((i : Int) - 1) (dev.evaluateInteger st method).2.1] ++ log1) ∨
       (¬ ((dev.evaluateInteger st method).1 = kIOReturnSuccess ∧
            (dev.evaluateInteger st method).2.1 ≠ 0) ∧
        ∃ log1,
          updateECLoop dev fuel ((i + 1) % 256) (dev.evaluateInteger st method).2.2 s
            = .ok (st1, s1, log1) ∧
          log = [.evaluateInteger ((i : Int) - 1) method (dev.evaluateInteger st method).1
                   (dev.evaluateInteger st method).2.1] ++ log1))) := by
  unfold updateECLoop at h
  by_cases hi : i < s.sensorCount
  · rw [if_pos hi] at h
    right
    cases hm : arrayGet s.sensorMethods ((i : Int) - 1) with
    | none => rw [hm] at h; simp at h
    | some method =>
      rw [hm] at h
      cases hec : s.ec with
      | false => simp [hec] at h
      | true =>
        simp only [hec, Bool.true_eq_false, if_false] at h
        refine ⟨hi, rfl, method, rfl, ?_⟩
        by_cases hr : (dev.evaluateInteger st method).1 = kIOReturnSuccess ∧
            (dev.evaluateInteger st method).2.1 ≠ 0
        · left
          refine ⟨hr, ?_⟩
          rw [if_pos hr] at h
          cases hcs : arraySet s.currentSensor ((i : Int) - 1) (dev.evaluateInteger st method).2.1 with
          | none => rw [hcs] at h; simp at h
          | some cs =>
            rw [hcs] at h
            obtain ⟨log1, h1, h2⟩ := logCons_ok _ _ _ _ _ h
            exact ⟨cs, log1, rfl, h1, h2⟩
        · right
          refine ⟨hr, ?_⟩
          rw [if_neg hr] at h
          obtain ⟨log1, h1, h2⟩ := logCons_ok _ _ _ _ _ h
          exact ⟨log1, h1, h2⟩
  · rw [if_neg hi] at h
    left
    simp only [Except.ok.injEq, Prod.mk.injEq] at h
    obtain ⟨rfl, rfl, rfl⟩ := h
    exact ⟨hi, rfl, rfl, rfl⟩


theorem arraySet_fields {α : Type} (xs cs : List α) (i : Int) (v : α)
    (h : arraySet xs i v = some cs) : 0 ≤ i ∧ i.toNat < xs.length ∧ cs = xs.set i.toNat v := by
  unfold arraySet at h
  by_cases hc : 0 ≤ i ∧ i.toNat < xs.length
  · rw [if_pos hc] at h
    exact ⟨hc.1, hc.2, (Option.some.inj h).symm⟩
  · rw [if_neg hc] at h; simp at h

theorem arrayGet_some {α : Type} (xs : List α) (i : Int) (x : α)
    (h : arrayGet xs i = some x) : 0 ≤ i := by
  unfold arrayGet at h
  by_cases hc : 0 ≤ i
  · exact hc
  · rw [if_neg hc] at h; simp at h

/-- The loop changes no field other than `currentSensor`. -/
theorem updateECLoop_fields {σ : Type} (dev : ECDevice σ) :
    ∀ (fuel i : Nat) (st st1 : σ) (s s1 : Driver) (log : List Effect),
      updateECLoop dev fuel i st s = .ok (st1, s1, log) →
      s1 = { s with currentSensor := s1.currentSensor } := by
  intro fuel
  induction fuel with
  | zero => intro i st st1 s s1 log h; simp [updateECLoop] at h
  | succ n ih =>
    intro i st st1 s s1 log h
    rcases updateECLoop_ok_inv dev n i st st1 s s1 log h with
      ⟨_, _, rfl, _⟩ | ⟨_, _, method, _, ⟨_, cs, log1, _, hrec, _⟩ | ⟨_, log1, hrec, _⟩⟩
    · rfl
    · have := ih _ _ _ _ _ _ hrec
      rw [this]
    · exact ih _ _ _ _ _ _ hrec

/-- A slot none of whose evaluations in the sweep succeeded with a non-zero
value keeps its content. -/
theorem updateECLoop_frame {σ : Type} (dev : ECDevice σ) :
    ∀ (fuel i : Nat) (st st1 : σ) (s s1 : Driver) (log : List Effect),
      updateECLoop dev fuel i st s = .ok (st1, s1, log) →
      ∀ j : Nat,
        (∀ m r v, Effect.evaluateInteger (j : Int) m r v ∈ log → r ≠ kIOReturnSuccess ∨ v = 0) →
        s1.currentSensor[j]? = s.currentSensor[j]? := by
  intro fuel
  induction fuel with
  | zero => intro i st st1 s s1 log h; simp [updateECLoop] at h
  | succ n ih =>
    intro i st st1 s s1 log h j hj
    rcases updateECLoop_ok_inv dev n i st st1 s s1 log h with
      ⟨_, _, rfl, _⟩ | ⟨_, _, method, _, ⟨hr, cs, log1, hcs, hrec, hlog⟩ | ⟨_, log1, hrec, hlog⟩⟩
    · rfl
    · have h1 := ih _ _ _ _ _ _ hrec j (fun m r v hm => hj m r v (by rw [hlog]; simp [hm]))
      rw [h1]
      obtain ⟨h0, _, rfl⟩ := arraySet_fields _ _ _ _ hcs
      have hne : ((i : Int) - 1).toNat ≠ j := by
        intro heq
        have hji : ((j : Nat) : Int) = (i : Int) - 1 := by omega
        have := hj method (dev.evaluateInteger st method).1 (dev.evaluateInteger st method).2.1
          (by rw [hlog, hji]; simp)
        rcases this with h2 | h2
        · exact h2 hr.1
        · exact hr.2 h2
      exact List.getElem?_set_ne hne
    · exact ih _ _ _ _ _ _ hrec j (fun m r v hm => hj m r v (by rw [hlog]; simp [hm]))

/-- From counter value 0 the loop can only leave at once: the index is `-1`. -/
theorem updateECLoop_zero_ok {σ : Type} (dev : ECDevice σ) (fuel : Nat) (st st1 : σ)
    (s s1 : Driver) (log : List Effect)
    (h : updateECLoop dev fuel 0 st s = .ok (st1, s1, log)) : s.sensorCount = 0 := by
  cases fuel with
  | zero => simp [updateECLoop] at h
  | succ n =>
    rcases updateECLoop_ok_inv dev n 0 st st1 s s1 log h with
      ⟨h0, _⟩ | ⟨_, _, method, hm, _⟩
    · omega
    · have := arrayGet_some _ _ _ hm
      simp at this

/-- A sweep that goes on after counter value `i` did not wrap the counter. -/
theorem updateECLoop_no_wrap {σ : Type} (dev : ECDevice σ) (fuel i : Nat) (st st1 : σ)
    (s s1 : Driver) (log : List Effect) (hi : i < 256) (hlt : i < s.sensorCount)
    (h : updateECLoop dev fuel ((i + 1) % 256) st s = .ok (st1, s1, log)) :
    i + 1 < 256 ∧ (i + 1) % 256 = i + 1 := by
  by_cases h255 : i = 255
  · subst h255
    have := updateECLoop_zero_ok dev fuel _ _ _ _ _ h
    omega
  · omega

/-- Evaluations of a sweep entered with counter `i` use indices from `i-1`
upwards. -/
theorem updateECLoop_idx_ge {σ : Type} (dev : ECDevice σ) :
    ∀ (fuel i : Nat) (st st1 : σ) (s s1 : Driver) (log : List Effect),
      i < 256 → updateECLoop dev fuel i st s = .ok (st1, s1, log) →
      ∀ (k : Int) m r v, Effect.evaluateInteger k m r v ∈ log → (i : Int) - 1 ≤ k := by
  intro fuel
  induction fuel with
  | zero => intro i st st1 s s1 log _ h; simp [updateECLoop] at h
  | succ n ih =>
    intro i st st1 s s1 log hi h k m r v hmem
    rcases updateECLoop_ok_inv dev n i st st1 s s1 log h with
      ⟨_, _, _, rfl⟩ | ⟨hlt, _, method, _, ⟨hr, cs, log1, hcs, hrec, hlog⟩ | ⟨_, log1, hrec, hlog⟩⟩
    · simp at hmem
    · obtain ⟨hlt2, hwrap⟩ :=
        updateECLoop_no_wrap dev n i _ _ { s with currentSensor := cs } _ _ hi hlt hrec
      rw [hwrap] at hrec
      rw [hlog] at hmem
      simp only [List.cons_append, List.nil_append, List.mem_cons, Effect.evaluateInteger.injEq,
        reduceCtorEq, false_or] at hmem
      rcases hmem with ⟨rfl, _⟩ | hmem
      · exact le_refl _
      · have := ih _ _ _ _ _ _ hlt2 hrec k m r v hmem
        push_cast at this; omega
    · obtain ⟨hlt2, hwrap⟩ := updateECLoop_no_wrap dev n i _ _ _ _ _ hi hlt hrec
      rw [hwrap] at hrec
      rw [hlog] at hmem
      simp only [List.cons_append, List.nil_append, List.mem_cons, Effect.evaluateInteger.injEq]
        at hmem
      rcases hmem with ⟨rfl, _⟩ | hmem
      · exact le_refl _
      · have := ih _ _ _ _ _ _ hlt2 hrec k m r v hmem
        push_cast at this; omega

/-- A slot whose evaluation in the sweep failed or gave 0 keeps its content. -/
theorem updateECLoop_keeps {σ : Type} (dev : ECDevice σ) :
    ∀ (fuel i : Nat) (st st1 : σ) (s s1 : Driver) (log : List Effect),
      i < 256 → updateECLoop dev fuel i st s = .ok (st1, s1, log) →
      ∀ (j : Nat) m r v, Effect.evaluateInteger (j : Int) m r v ∈ log →
        (r ≠ kIOReturnSuccess ∨ v = 0) → s1.currentSensor[j]? = s.currentSensor[j]? := by
  intro fuel
  induction fuel with
  | zero => intro i st st1 s s1 log _ h; simp [updateECLoop] at h
  | succ n ih =>
    intro i st st1 s s1 log hi h j m r v hmem hfail
    rcases updateECLoop_ok_inv dev n i st st1 s s1 log h with
      ⟨_, _, _, rfl⟩ | ⟨hlt, _, method, _, ⟨hr, cs, log1, hcs, hrec, hlog⟩ | ⟨hr, log1, hrec, hlog⟩⟩
    · simp at hmem
    · obtain ⟨hlt2, hwrap⟩ :=
        updateECLoop_no_wrap dev n i _ _ { s with currentSensor := cs } _ _ hi hlt hrec
      rw [hwrap] at hrec
      rw [hlog] at hmem
      simp only [List.cons_append, List.nil_append, List.mem_cons, Effect.evaluateInteger.injEq,
        reduceCtorEq, false_or] at hmem
      rcases hmem with ⟨_, _, rfl, rfl⟩ | hmem
      · rcases hfail with h2 | h2
        · exact absurd hr.1 h2
        · exact absurd h2 hr.2
      · have hge := updateECLoop_idx_ge dev _ _ _ _ _ _ _ hlt2 hrec _ _ _ _ hmem
        rw [ih _ _ _ _ _ _ hlt2 hrec j m r v hmem hfail]
        obtain ⟨h0, _, rfl⟩ := arraySet_fields _ _ _ _ hcs
        have hne : ((i : Int) - 1).toNat ≠ j := by push_cast at hge; omega
        exact List.getElem?_set_ne hne
    · obtain ⟨hlt2, hwrap⟩ := updateECLoop_no_wrap dev n i _ _ _ _ _ hi hlt hrec
      rw [hwrap] at hrec
      rw [hlog] at hmem
      simp only [List.cons_append, List.nil_append, List.mem_cons, Effect.evaluateInteger.injEq]
        at hmem
      rcases hmem with ⟨hji, _⟩ | hmem
      · refine updateECLoop_frame dev _ _ _ _ _ _ _ hrec j ?_
        intro m2 r2 v2 hm2
        have hge := updateECLoop_idx_ge dev _ _ _ _ _ _ _ hlt2 hrec _ _ _ _ hm2
        push_cast at hge; omega
      · exact ih _ _ _ _ _ _ hlt2 hrec j m r v hmem hfail


theorem logCons_error {σ : Type} (es : List Effect) (r : Except Fault (σ × Driver × List Effect))
    (f : Fault) (h : logCons es r = .error f) : r = .error f := by
  cases r with
  | error g => simpa [logCons] using h
  | ok x => obtain ⟨a, b, l⟩ := x; simp [logCons] at h

/-- The iteration budget of `updateEC` is never what ends the loop: the counter
either grows or the loop leaves or faults, and after a wrap to 0 the index is
`-1`. -/
theorem updateECLoop_fuel {σ : Type} (dev : ECDevice σ) :
    ∀ (fuel i : Nat) (st : σ) (s : Driver),
      i < 256 → 1 ≤ fuel → (i = 0 ∨ 257 ≤ fuel + i) →
      updateECLoop dev fuel i st s ≠ .error .fuel := by
  intro fuel
  induction fuel with
  | zero => intro i st s _ h; omega
  | succ n ih =>
    intro i st s hi _ hfuel h
    unfold updateECLoop at h
    by_cases hlt : i < s.sensorCount
    · rw [if_pos hlt] at h
      cases hm : arrayGet s.sensorMethods ((i : Int) - 1) with
      | none => rw [hm] at h; simp at h
      | some method =>
        have h0 := arrayGet_some _ _ _ hm
        have hi1 : 1 ≤ i := by omega
        have hn : 1 ≤ n := by omega
        have hnext : (i + 1) % 256 = 0 ∨ 257 ≤ n + (i + 1) % 256 := by omega
        have hlt256 : (i + 1) % 256 < 256 := Nat.mod_lt _ (by decide)
        rw [hm] at h
        cases hec : s.ec with
        | false => simp [hec] at h
        | true =>
          simp only [hec, Bool.true_eq_false, if_false] at h
          by_cases hr : (dev.evaluateInteger st method).1 = kIOReturnSuccess ∧
              (dev.evaluateInteger st method).2.1 ≠ 0
          · rw [if_pos hr] at h
            cases hcs : arraySet s.currentSensor ((i : Int) - 1)
                (dev.evaluateInteger st method).2.1 with
            | none => rw [hcs] at h; simp at h
            | some cs =>
              rw [hcs] at h
              exact ih _ _ _ hlt256 hn hnext (logCons_error _ _ _ h)
          · rw [if_neg hr] at h
            exact ih _ _ _ hlt256 hn hnext (logCons_error _ _ _ h)
    · rw [if_neg hlt] at h; simp at h

theorem updateEC_ne_fuel {σ : Type} (c : Consts) (dev : ECDevice σ) (st : σ) (s : Driver) :
    updateEC c dev st s ≠ .error .fuel := by
  intro h
  unfold updateEC at h
  cases hl : updateECLoop dev 257 (s.ECSensorBase % 256) st s with
  | error f =>
    rw [hl] at h
    simp only [Except.error.injEq] at h
    subst h
    exact updateECLoop_fuel dev 257 _ st s (Nat.mod_lt _ (by decide)) (by decide) (by omega) hl
  | ok x =>
    obtain ⟨a, b, l⟩ := x
    rw [hl] at h
    cases hp : b.poller with
    | none => simp [hp] at h
    | some t => simp [hp] at h

/-- With all indices `i-1` in range, the EC present and enough budget, the
sweep runs to its end. -/
theorem updateECLoop_total {σ : Type} (dev : ECDevice σ) :
    ∀ (fuel i : Nat) (st : σ) (s : Driver),
      1 ≤ i → s.sensorCount ≤ 255 → s.sensorCount ≤ s.sensorMethods.length + 1 →
      s.sensorCount ≤ s.currentSensor.length + 1 → s.ec = true →
      1 ≤ fuel → s.sensorCount + 1 ≤ fuel + i →
      ∃ out, updateECLoop dev fuel i st s = .ok out := by
  intro fuel
  induction fuel with
  | zero => intro i st s _ _ _ _ _ h; omega
  | succ n ih =>
    intro i st s hi h255 hm hc hec _ hfuel
    unfold updateECLoop
    by_cases hlt : i < s.sensorCount
    · rw [if_pos hlt]
      have hidx : 0 ≤ (i : Int) - 1 := by omega
      have htn : ((i : Int) - 1).toNat = i - 1 := by omega
      have hwrap : (i + 1) % 256 = i + 1 := by omega
      cases hget : arrayGet s.sensorMethods ((i : Int) - 1) with
      | none =>
        unfold arrayGet at hget
        rw [if_pos hidx, htn, List.getElem?_eq_none_iff] at hget
        omega
      | some method =>
        dsimp only
        rw [if_neg (by simp [hec]), hwrap]
        by_cases hr : (dev.evaluateInteger st method).1 = kIOReturnSuccess ∧
            (dev.evaluateInteger st method).2.1 ≠ 0
        · rw [if_pos hr]
          have hset : arraySet s.currentSensor ((i : Int) - 1) (dev.evaluateInteger st method).2.1
              = some (s.currentSensor.set (i - 1) (dev.evaluateInteger st method).2.1) := by
            unfold arraySet
            rw [if_pos ⟨hidx, by omega⟩, htn]
          rw [hset]
          obtain ⟨out, hout⟩ := ih (i + 1) (dev.evaluateInteger st method).2.2
            { s with currentSensor :=
                s.currentSensor.set (i - 1) (dev.evaluateInteger st method).2.1 }
            (by omega) h255 hm (by simpa using hc) hec (by omega) (by simp only; omega)
          obtain ⟨a, b, l⟩ := out
          simp only [hout, logCons]
          exact ⟨_, rfl⟩
        · rw [if_neg hr]
          obtain ⟨out, hout⟩ := ih (i + 1) (dev.evaluateInteger st method).2.2 s
            (by omega) h255 hm hc hec (by omega) (by omega)
          obtain ⟨a, b, l⟩ := out
          simp only [hout, logCons]
          exact ⟨_, rfl⟩
    · rw [if_neg hlt]
      exact ⟨_, rfl⟩

/-- Whenever the counter starts at 0 and there is a sensor to poll, the first
index used is `-1` and the tick faults, whatever the EC and the arrays. -/
theorem updateEC_from_zero {σ : Type} (c : Consts) (dev : ECDevice σ) (st : σ) (s : Driver)
    (hbase : s.ECSensorBase % 256 = 0) (hcount : 0 < s.sensorCount) :
    updateEC c dev st s = .error (.outOfRange (-1)) := by
  unfold updateEC
  rw [hbase]
  unfold updateECLoop
  rw [if_pos hcount]
  have hget : arrayGet s.sensorMethods (((0 : Nat) : Int) - 1) = none := by
    unfold arrayGet
    rw [if_neg (by decide)]
  rw [hget]
  rfl

/-! ## The polling tick -/

/-- C1 (no-zero-overwrite).  For every driver state and every EC: a call of
`updateEC` is never ended by the iteration budget, it returns whenever the
indices it uses are in range (counter starting at 1 or above, `sensorCount` at
most 255 and within both arrays), the EC is present and the timer exists; and
whenever it returns, a slot whose evaluation in that tick failed (result code
other than success) or succeeded with the value 0 holds the value it held
before the tick. -/
theorem updateEC_no_zero_overwrite {σ : Type} (c : Consts) (dev : ECDevice σ) (st : σ)
    (s : Driver) :
    updateEC c dev st s ≠ .error .fuel ∧
    (1 ≤ s.ECSensorBase → s.ECSensorBase ≤ s.sensorCount → s.sensorCount ≤ 255 →
      s.sensorCount ≤ s.sensorMethods.length → s.sensorCount ≤ s.currentSensor.length →
      s.ec = true → s.poller ≠ none → ∃ out, updateEC c dev st s = .ok out) ∧
    (∀ st1 s1 log, updateEC c dev st s = .ok (st1, s1, log) →
      ∀ (j : Nat) (m : String) (r : IOReturn) (v : Nat),
        Effect.evaluateInteger (j : Int) m r v ∈ log → (r ≠ kIOReturnSuccess ∨ v = 0) →
        s1.currentSensor[j]? = s.currentSensor[j]?) := by
  refine ⟨updateEC_ne_fuel c dev st s, ?_, ?_⟩
  · intro hb hbc h255 hm hc hec hp
    have hmod : s.ECSensorBase % 256 = s.ECSensorBase := by omega
    obtain ⟨out, hout⟩ := updateECLoop_total dev 257 (s.ECSensorBase % 256) st s
      (by omega) h255 (by omega) (by omega) hec (by decide) (by omega)
    obtain ⟨a, b, l⟩ := out
    have hb2 := updateECLoop_fields dev _ _ _ _ _ _ _ hout
    have hpb : b.poller = s.poller := by rw [hb2]
    unfold updateEC
    rw [hout]
    cases hq : b.poller with
    | none => rw [hpb] at hq; exact absurd hq hp
    | some t => simp only [hq]; exact ⟨_, rfl⟩
  · intro st1 s1 log h j m r v hmem hfail
    unfold updateEC at h
    cases hl : updateECLoop dev 257 (s.ECSensorBase % 256) st s with
    | error f => rw [hl] at h; simp at h
    | ok x =>
      obtain ⟨a, b, l⟩ := x
      rw [hl] at h
      cases hq : b.poller with
      | none => simp [hq] at h
      | some t =>
        simp only [hq, Except.ok.injEq, Prod.mk.injEq] at h
        obtain ⟨rfl, rfl, rfl⟩ := h
        have hmem2 : Effect.evaluateInteger (j : Int) m r v ∈ l := by
          simpa using hmem
        exact updateECLoop_keeps dev _ _ _ _ _ _ _ (Nat.mod_lt _ (by decide)) hl j m r v hmem2 hfail

/-- C1, on a run: the EC answers success with 0 for cell 0, fails for cell 1
and answers 99 for cell 2; cells 0 and 1 keep 11 and 22. -/
theorem updateEC_no_zero_overwrite_witness :
    ∃ st1 s1 log,
      updateEC exampleConsts scriptEC [(0, 0), (5, 77), (0, 99)] exampleRunning
        = .ok (st1, s1, log) ∧
      s1.currentSensor[0]? = some 11 ∧ s1.currentSensor[1]? = some 22 ∧
      s1.currentSensor[2]? = some 99 :=
  ⟨_, _, _, rfl,
   (updateEC_no_zero_overwrite exampleConsts scriptEC [(0, 0), (5, 77), (0, 99)]
      exampleRunning).2.2 _ _ _ rfl 0 "" 0 0 (by decide) (Or.inr rfl),
   (updateEC_no_zero_overwrite exampleConsts scriptEC [(0, 0), (5, 77), (0, 99)]
      exampleRunning).2.2 _ _ _ rfl 1 "" 5 77 (by decide) (Or.inl (by decide)),
   rfl⟩

/-- C2 (polled slot range), evaluated on the code.  Scenario A: a fresh driver
is started with the one-row catalog `TB0T(0)`, the EC answers 3131; the first
tick indexes cell `-1` and faults, no cell receives 3131.  And with
`ECSensorBase = 1`, `sensorCount = 2` the tick evaluates and writes cell 0,
which is outside `[1, 2)`, and leaves cell 1 as it was. -/
theorem updateEC_polls_one_below_range :
    updateEC exampleConsts (constEC 3131) ()
      (start exampleConsts ⟨true, true, kIOReturnSuccess, fun _ => some "TB0T"⟩
        [⟨KeyTB0T 0, "Battery"⟩] [] (fresh exampleConsts true true)).2.1
      = .error (.outOfRange (-1)) ∧
    ∃ st1 s1,
      updateEC exampleConsts (constEC 3131) ()
        { exampleRunning with ECSensorBase := 1, sensorCount := 2 }
        = .ok (st1, s1, [.evaluateInteger 0 "" kIOReturnSuccess 3131, .store 0 3131,
                         .setTimeoutMS 2000]) ∧
      s1.currentSensor = [3131, 22, 33, 44] :=
  ⟨rfl, _, _, rfl, rfl⟩

/-- C10 (index safety of the poll loop), evaluated on the code: with
`ECSensorBase = 0`, `sensorCount = 1` and arrays of 4 cells, so that
`0 ≤ ECSensorBase ≤ sensorCount ≤ capacity`, the first iteration of `updateEC`
uses index `-1` and takes the out-of-range branch. -/
theorem updateEC_index_minus_one :
    (0 : Nat) ≤ ({ exampleRunning with ECSensorBase := 0, sensorCount := 1 } : Driver).ECSensorBase ∧
    ({ exampleRunning with ECSensorBase := 0, sensorCount := 1 } : Driver).ECSensorBase
      ≤ ({ exampleRunning with ECSensorBase := 0, sensorCount := 1 } : Driver).sensorCount ∧
    ({ exampleRunning with ECSensorBase := 0, sensorCount := 1 } : Driver).sensorCount
      ≤ exampleRunning.sensorMethods.length ∧
    ({ exampleRunning with ECSensorBase := 0, sensorCount := 1 } : Driver).sensorCount
      ≤ exampleRunning.currentSensor.length ∧
    updateEC exampleConsts (constEC 3131) ()
      { exampleRunning with ECSensorBase := 0, sensorCount := 1 }
      = .error (.outOfRange (-1)) :=
  ⟨by decide, by decide, by decide, by decide, rfl⟩

/-! ## The handshake -/

/-- C4 (handshake outcome).  The handler returns true exactly when both the
identity and the aggregator are non-null and the submission call returns
success; with either argument null it returns false and makes no submission
call; with both non-null and a submission result other than success
(unsupported or any other code) it returns false after exactly one submission
call. -/
theorem vsmcNotificationHandler_outcome (sensors : Option Driver) (vsmc : Option IOService) :
    ((vsmcNotificationHandler sensors vsmc).1 = true ↔
      ∃ self v, sensors = some self ∧ vsmc = some v ∧
        v.callPlatformFunction self.vsmcPlugin = kIOReturnSuccess) ∧
    ((sensors = none ∨ vsmc = none) →
      (vsmcNotificationHandler sensors vsmc).1 = false ∧
      submissions (vsmcNotificationHandler sensors vsmc).2 = []) ∧
    (∀ self v, sensors = some self → vsmc = some v →
      v.callPlatformFunction self.vsmcPlugin ≠ kIOReturnSuccess →
      (vsmcNotificationHandler sensors vsmc).1 = false ∧
      submissions (vsmcNotificationHandler sensors vsmc).2
        = [.callPlatformFunction (v.callPlatformFunction self.vsmcPlugin)]) := by
  cases sensors with
  | none => simp [vsmcNotificationHandler, submissions]
  | some self =>
    cases vsmc with
    | none => simp [vsmcNotificationHandler, submissions]
    | some v =>
      by_cases h1 : v.callPlatformFunction self.vsmcPlugin = kIOReturnSuccess
      · simp [vsmcNotificationHandler, submissions, h1]
      · by_cases h2 : v.callPlatformFunction self.vsmcPlugin = kIOReturnUnsupported
        · have hne : ¬ kIOReturnUnsupported = kIOReturnSuccess := by decide
          simp [vsmcNotificationHandler, submissions, h2, hne]
        · simp [vsmcNotificationHandler, submissions, h1, h2]

/-- One eligible notification: the handler returns true and makes exactly one
submission call. -/
theorem vsmcNotificationHandler_eligible (n : Option Driver × Option IOService)
    (h : eligible n = true) :
    (vsmcNotificationHandler n.1 n.2).1 = true ∧
    submissions (vsmcNotificationHandler n.1 n.2).2
      = [.callPlatformFunction kIOReturnSuccess] := by
  obtain ⟨sensors, vsmc⟩ := n
  cases sensors with
  | none => simp [eligible] at h
  | some self =>
    cases vsmc with
    | none => simp [eligible] at h
    | some v =>
      have h3 : v.callPlatformFunction self.vsmcPlugin = kIOReturnSuccess := by
        simpa [eligible] using h
      simp [vsmcNotificationHandler, submissions, h3]

theorem submissions_append (a b : List Effect) :
    submissions (a ++ b) = submissions a ++ submissions b := by
  simp [submissions]

/-- C3 (idempotent handshake), as the code has it: the handler keeps no record
of an earlier submission, so over any sequence of eligible notifications every
notification returns true and makes its own submission call; the number of
submission calls is the number of notifications. -/
theorem deliver_submits_every_time (notes : List (Option Driver × Option IOService))
    (h : ∀ n ∈ notes, eligible n = true) :
    (submissions (deliveredLog notes)).length = notes.length ∧
    ∀ r ∈ deliver notes, r.1 = true ∧ submissions r.2 = [.callPlatformFunction kIOReturnSuccess] := by
  induction notes with
  | nil => simp [deliveredLog, deliver, submissions]
  | cons n rest ih =>
    have hn := vsmcNotificationHandler_eligible n (h n (List.mem_cons_self _ _))
    have hrest := ih (fun m hm => h m (List.mem_cons_of_mem _ hm))
    constructor
    · have : deliveredLog (n :: rest)
          = (vsmcNotificationHandler n.1 n.2).2 ++ deliveredLog rest := by
        simp [deliveredLog, deliver]
      rw [this, submissions_append, List.length_append, hn.2, hrest.1]
      simp; omega
    · intro r hr
      simp only [deliver, List.map_cons, List.mem_cons] at hr
      rcases hr with rfl | hr
      · exact hn
      · exact hrest.2 r hr

/-- C3, on a run: three eligible notifications give three submission calls. -/
theorem deliver_submits_every_time_witness :
    (submissions (deliveredLog
      [(some (fresh exampleConsts true true), some acceptingVSMC),
       (some (fresh exampleConsts true true), some acceptingVSMC),
       (some (fresh exampleConsts true true), some acceptingVSMC)])).length = 3 :=
  (deliver_submits_every_time
    [(some (fresh exampleConsts true true), some acceptingVSMC),
     (some (fresh exampleConsts true true), some acceptingVSMC),
     (some (fresh exampleConsts true true), some acceptingVSMC)]
    (by
      intro n hn
      simp only [List.mem_cons, List.mem_singleton, List.not_mem_nil, or_false, or_self] at hn
      subst hn
      rfl)).1

/-- C3 as stated fails: two notifications, each with a non-null identity and an
aggregator that accepts, give two submission calls, and the second notification
makes one of them. -/
theorem two_notifications_submit_twice :
    eligible (some (fresh exampleConsts true true), some acceptingVSMC) = true ∧
    (submissions (deliveredLog
      [(some (fresh exampleConsts true true), some acceptingVSMC),
       (some (fresh exampleConsts true true), some acceptingVSMC)])).length = 2 ∧
    (vsmcNotificationHandler (some (fresh exampleConsts true true)) (some acceptingVSMC)).2
      ≠ [] :=
  ⟨rfl, by decide, by decide⟩

/-! ## Power transitions -/

/-- C6 (power transitions), as the code has it.  For a driver whose timer
exists and a call the base class acknowledges: (a) with ordinal 0 and
`awake = true` the timer ends disabled and detached and `awake = false`;
(b) with an ordinal above 0 and `awake = false`, when `addEventSource` returns
success, the timer ends attached, armed with `POLLING_INTERVAL` and enabled, and
`awake = true`; both calls return `kIOPMAckImplied`. -/
theorem setPowerState_transitions (c : Consts) (addRet : IOReturn) (powerStateOrdinal : Nat)
    (s : Driver) (t : IOTimerEventSource) (hp : s.poller = some t) :
    (powerStateOrdinal = 0 → s.awake = true →
      ∃ s1 log, setPowerState c kIOPMAckImplied addRet powerStateOrdinal s
          = .ok (kIOPMAckImplied, s1, log) ∧
        s1.poller = some { t with enabled := false } ∧ s1.attached = false ∧
        s1.awake = false) ∧
    (0 < powerStateOrdinal → s.awake = false → addRet = kIOReturnSuccess →
      ∃ s1 log, setPowerState c kIOPMAckImplied addRet powerStateOrdinal s
          = .ok (kIOPMAckImplied, s1, log) ∧
        s1.poller = some ⟨true, some c.POLLING_INTERVAL⟩ ∧ s1.attached = true ∧
        s1.awake = true) := by
  constructor
  · intro h0 ha
    refine ⟨{ s with poller := some { t with enabled := false }, attached := false,
                     awake := false }, [.disable, .removeEventSource], ?_, rfl, rfl, rfl⟩
    simp [setPowerState, h0, ha, hp]
  · intro h0 ha hadd
    have hne : powerStateOrdinal ≠ 0 := by omega
    refine ⟨{ s with awake := true, attached := true,
                     poller := some ⟨true, some c.POLLING_INTERVAL⟩ },
      [.addEventSource addRet, .setTimeoutMS c.POLLING_INTERVAL, .enable], ?_, rfl, rfl, rfl⟩
    simp [setPowerState, hne, ha, hp, hadd]

/-- C6, on runs: a running driver put to sleep, and a sleeping driver woken
with a successful attach. -/
theorem setPowerState_transitions_witness :
    (∃ s1 log, setPowerState exampleConsts kIOPMAckImplied kIOReturnSuccess 0 exampleRunning
        = .ok (kIOPMAckImplied, s1, log) ∧
      s1.poller = some ⟨false, none⟩ ∧ s1.attached = false ∧ s1.awake = false) ∧
    (∃ s1 log, setPowerState exampleConsts kIOPMAckImplied kIOReturnSuccess 1 exampleAsleep
        = .ok (kIOPMAckImplied, s1, log) ∧
      s1.poller = some ⟨true, some 2000⟩ ∧ s1.attached = true ∧ s1.awake = true) :=
  ⟨(setPowerState_transitions exampleConsts kIOReturnSuccess 0 exampleRunning ⟨true, none⟩
      rfl).1 rfl rfl,
   (setPowerState_transitions exampleConsts kIOReturnSuccess 1 exampleAsleep ⟨false, some 2000⟩
      rfl).2 (by decide) rfl rfl⟩

/-- C6 as stated fails: a sleeping driver is woken with ordinal 1, the base
class acknowledges, `addEventSource` returns an error; the call returns
`kIOPMAckImplied` and the timer ends enabled and armed but not attached. -/
theorem wake_with_failed_attach :
    ∃ s1 log, setPowerState exampleConsts kIOPMAckImplied kIOReturnInvalid 1 exampleAsleep
        = .ok (kIOPMAckImplied, s1, log) ∧
      exampleAsleep.awake = false ∧
      s1.poller = some ⟨true, some 2000⟩ ∧ s1.attached = false ∧ s1.awake = true :=
  ⟨_, _, rfl, rfl, rfl, rfl, rfl⟩

/-- C7 (idempotent power triggers).  For every driver state and two ordinals
that are both 0 or both above 0, the base class acknowledging both calls: the
first call returns whenever the timer exists, and whenever it returns, the
second call returns `kIOPMAckImplied`, leaves the state of the first call
unchanged and makes no call on the timer or the work loop. -/
theorem setPowerState_idempotent (c : Consts) (addRet1 addRet2 : IOReturn) (a b : Nat)
    (s : Driver) (hab : (a = 0 ∧ b = 0) ∨ (0 < a ∧ 0 < b)) :
    (s.poller ≠ none → ∃ out, setPowerState c kIOPMAckImplied addRet1 a s = .ok out) ∧
    (∀ r s1 log, setPowerState c kIOPMAckImplied addRet1 a s = .ok (r, s1, log) →
      setPowerState c kIOPMAckImplied addRet2 b s1 = .ok (kIOPMAckImplied, s1, [])) := by
  constructor
  · intro hp
    cases hq : s.poller with
    | none => exact absurd hq hp
    | some t =>
      unfold setPowerState
      simp only [hq]
      split
      · exact ⟨_, rfl⟩
      · split
        · split <;> exact ⟨_, rfl⟩
        · split <;> exact ⟨_, rfl⟩
  · intro r s1 log h
    rcases hab with ⟨ha, hb⟩ | ⟨ha, hb⟩
    · subst ha; subst hb
      cases haw : s.awake with
      | true =>
        cases hq : s.poller with
        | none => simp [setPowerState, haw, hq] at h
        | some t =>
          simp [setPowerState, haw, hq] at h
          obtain ⟨_, rfl, _⟩ := h
          simp [setPowerState]
      | false =>
        simp [setPowerState, haw] at h
        obtain ⟨_, rfl, _⟩ := h
        simp [setPowerState, haw]
    · have ha0 : a ≠ 0 := by omega
      have hb0 : b ≠ 0 := by omega
      cases haw : s.awake with
      | true =>
        simp [setPowerState, haw, ha0] at h
        obtain ⟨_, rfl, _⟩ := h
        simp [setPowerState, haw, hb0]
      | false =>
        cases hq : s.poller with
        | none => simp [setPowerState, haw, hq, ha0] at h
        | some t =>
          simp [setPowerState, haw, hq, ha0] at h
          obtain ⟨_, rfl, _⟩ := h
          simp [setPowerState, hb0]

/-- C7, on a run: two wake notifications in a row attach the timer once. -/
theorem setPowerState_idempotent_witness :
    ∃ s1, setPowerState exampleConsts kIOPMAckImplied kIOReturnSuccess 1 exampleAsleep
        = .ok (kIOPMAckImplied, s1,
            [.addEventSource kIOReturnSuccess, .setTimeoutMS 2000, .enable]) ∧
      setPowerState exampleConsts kIOPMAckImplied kIOReturnSuccess 2 s1
        = .ok (kIOPMAckImplied, s1, []) :=
  ⟨_, rfl,
   (setPowerState_idempotent exampleConsts kIOReturnSuccess kIOReturnSuccess 1 2 exampleAsleep
      (Or.inr ⟨by decide, by decide⟩)).2 _ _ _ rfl⟩

/-! ## Start, and the timer over the life of the driver -/

/-- C9 (fatal start).  If the base class start fails, or `initPoller` returns no
timer, or `addEventSource` returns anything other than success, then `start`
returns false; the key table, the sensor registry and the notifier are as
before the call; the only calls made are `validateEC` and `addEventSource`, so
no key is added, nothing is sorted, no handler is registered and the timer is
neither armed nor enabled; and a timer created in the call is left unarmed and
disabled. -/
theorem start_fatal (c : Consts) (env : StartEnv) (tableDeciKelvin table : List sensorPair)
    (s : Driver)
    (h : env.superStart = false ∨ initPoller env = none ∨
      env.addEventSource ≠ kIOReturnSuccess) :
    (start c env tableDeciKelvin table s).1 = false ∧
    (start c env tableDeciKelvin table s).2.1.vsmcPlugin = s.vsmcPlugin ∧
    (start c env tableDeciKelvin table s).2.1.sensorCount = s.sensorCount ∧
    (start c env tableDeciKelvin table s).2.1.vsmcNotifier = s.vsmcNotifier ∧
    (∀ e ∈ (start c env tableDeciKelvin table s).2.2,
      e = .validateEC ∨ e = .addEventSource env.addEventSource) ∧
    (env.superStart = false → (start c env tableDeciKelvin table s).2.1 = s) ∧
    (env.superStart = true → ∀ t, (start c env tableDeciKelvin table s).2.1.poller = some t →
      t.enabled = false ∧ t.timeout = none) := by
  cases hs : env.superStart with
  | false => simp [start, hs]
  | true =>
    cases hi : env.initPoller with
    | false => simp [start, hs, initPoller, hi]
    | true =>
      have hadd : env.addEventSource ≠ kIOReturnSuccess := by
        rcases h with h | h | h
        · rw [hs] at h; exact absurd h (by decide)
        · simp [initPoller, hi] at h
        · exact h
      simp [start, hs, initPoller, hi, hadd]

/-- C9, on a run: the work loop refuses the timer. -/
theorem start_fatal_witness :
    (start exampleConsts ⟨true, true, kIOReturnInvalid, fun name => some name⟩
      presetTemperatureDeciKelvin presetTemperature (fresh exampleConsts true true)).1 = false ∧
    (start exampleConsts ⟨true, true, kIOReturnInvalid, fun name => some name⟩
      presetTemperatureDeciKelvin presetTemperature
      (fresh exampleConsts true true)).2.1.vsmcPlugin = [] :=
  ⟨(start_fatal exampleConsts ⟨true, true, kIOReturnInvalid, fun name => some name⟩
      presetTemperatureDeciKelvin presetTemperature (fresh exampleConsts true true)
      (Or.inr (Or.inr (by decide)))).1,
   (start_fatal exampleConsts ⟨true, true, kIOReturnInvalid, fun name => some name⟩
      presetTemperatureDeciKelvin presetTemperature (fresh exampleConsts true true)
      (Or.inr (Or.inr (by decide)))).2.1⟩

/-- C8 (timer-attachment invariant), evaluated on the code: a fresh driver is
started, put to sleep with ordinal 0 and woken with ordinal 1 while
`addEventSource` returns an error.  `setPowerState` does not look at that
result, as `start` does, and enables the timer: the state reached has the timer
enabled and detached. -/
theorem timer_enabled_while_detached :
    ∃ s, run exampleConsts (fresh exampleConsts true true)
        [.start goodEnv presetTemperatureDeciKelvin presetTemperature,
         .setPowerState kIOPMAckImplied kIOReturnSuccess 0,
         .setPowerState kIOPMAckImplied kIOReturnInvalid 1] = some s ∧
      s.poller = some ⟨true, some 2000⟩ ∧ s.attached = false ∧ timerInvariant s = false :=
  ⟨_, rfl, rfl, rfl, rfl⟩

/-- The step `addECKeySp` leaves the timer and its attachment alone. -/
theorem addECKeySp_timer (c : Consts) (lookup : String → Option String) (key : SMC_KEY)
    (name : String) (type : SensorType) (acc : Driver × List Effect) :
    (addECKeySp c lookup key name type acc).1.poller = acc.1.poller ∧
    (addECKeySp c lookup key name type acc).1.attached = acc.1.attached := by
  unfold addECKeySp
  split
  · split <;> exact ⟨rfl, rfl⟩
  · exact ⟨rfl, rfl⟩

theorem foldl_addECKeySp_timer (c : Consts) (lookup : String → Option String)
    (type : SensorType) (rows : List sensorPair) :
    ∀ acc : Driver × List Effect,
      (rows.foldl (fun acc pair => addECKeySp c lookup pair.key pair.name type acc) acc).1.poller
        = acc.1.poller ∧
      (rows.foldl (fun acc pair => addECKeySp c lookup pair.key pair.name type acc) acc).1.attached
        = acc.1.attached := by
  induction rows with
  | nil => intro acc; exact ⟨rfl, rfl⟩
  | cons p rest ih =>
    intro acc
    simp only [List.foldl_cons]
    have h1 := ih (addECKeySp c lookup p.key p.name type acc)
    have h2 := addECKeySp_timer c lookup p.key p.name type acc
    exact ⟨h1.1.trans h2.1, h1.2.trans h2.2⟩

/-- The function `addVSMCKey` leaves the timer and its attachment alone. -/
theorem addVSMCKey_timer (c : Consts) (lookup : String → Option String)
    (tableDeciKelvin table : List sensorPair) (s : Driver) :
    (addVSMCKey c lookup tableDeciKelvin table s).1.poller = s.poller ∧
    (addVSMCKey c lookup tableDeciKelvin table s).1.attached = s.attached := by
  unfold addVSMCKey
  split
  · exact ⟨rfl, rfl⟩
  · have h2 := foldl_addECKeySp_timer c lookup .atomicSpKey table
      (tableDeciKelvin.foldl
        (fun acc pair => addECKeySp c lookup pair.key pair.name .atomicSpDeciKelvinKey acc)
        ({ s with ECSensorBase := s.sensorCount }, []))
    have h1 := foldl_addECKeySp_timer c lookup .atomicSpDeciKelvinKey tableDeciKelvin
      ({ s with ECSensorBase := s.sensorCount }, [])
    exact ⟨h2.1.trans h1.1, h2.2.trans h1.2⟩

/-- A tick re-arms the timer and changes nothing else about it. -/
theorem updateEC_timer {σ : Type} (c : Consts) (dev : ECDevice σ) (st st1 : σ)
    (s s1 : Driver) (log : List Effect) (h : updateEC c dev st s = .ok (st1, s1, log)) :
    s1.attached = s.attached ∧
    ∃ t, s.poller = some t ∧ s1.poller = some { t with timeout := some c.POLLING_INTERVAL } := by
  unfold updateEC at h
  cases hl : updateECLoop dev 257 (s.ECSensorBase % 256) st s with
  | error f => rw [hl] at h; simp at h
  | ok x =>
    obtain ⟨a, b, l⟩ := x
    rw [hl] at h
    have hb := updateECLoop_fields dev _ _ _ _ _ _ _ hl
    cases hq : b.poller with
    | none => simp [hq] at h
    | some t =>
      simp only [hq, Except.ok.injEq, Prod.mk.injEq] at h
      obtain ⟨_, rfl, _⟩ := h
      have hp : b.poller = s.poller := by rw [hb]
      have ha : b.attached = s.attached := by rw [hb]
      exact ⟨ha, t, by rw [← hp, hq], rfl⟩

/-- The invariant is kept by every event in which an `addEventSource` made by
`setPowerState` succeeds. -/
theorem timerInvariant_step (c : Consts) (s s1 : Driver) (e : Event)
    (hadd : ∀ superRet addRet n, e = .setPowerState superRet addRet n →
      addRet = kIOReturnSuccess)
    (hinv : timerInvariant s = true) (h : step c s e = some s1) :
    timerInvariant s1 = true := by
  cases e with
  | start env tableDeciKelvin table =>
    simp only [step, Option.some.injEq] at h
    subst h
    cases hs : env.superStart with
    | false => simpa [start, hs] using hinv
    | true =>
      cases hi : env.initPoller with
      | false => simp [start, hs, initPoller, hi, timerInvariant]
      | true =>
        by_cases ha : env.addEventSource = kIOReturnSuccess
        · have hk := addVSMCKey_timer c env.lookup tableDeciKelvin table
            { s with awake := true, poller := some ⟨false, none⟩, attached := true }
          simp [start, hs, initPoller, hi, ha, timerInvariant]
          exact hk.2
        · simp [start, hs, initPoller, hi, ha, timerInvariant]
  | setPowerState superRet addRet n =>
    have := hadd superRet addRet n rfl
    subst this
    simp only [step] at h
    unfold setPowerState at h
    by_cases hsup : superRet = kIOPMAckImplied
    · by_cases hn : n = 0
      · cases haw : s.awake with
        | true =>
          cases hq : s.poller with
          | none => simp [hsup, hn, haw, hq] at h
          | some t =>
            simp [hsup, hn, haw, hq] at h
            subst h
            simp [timerInvariant]
        | false =>
          simp [hsup, hn, haw] at h
          subst h; exact hinv
      · cases haw : s.awake with
        | true =>
          simp [hsup, hn, haw] at h
          subst h; exact hinv
        | false =>
          cases hq : s.poller with
          | none => simp [hsup, hn, haw, hq] at h
          | some t =>
            simp [hsup, hn, haw, hq] at h
            subst h
            simp [timerInvariant]
    · simp [hsup] at h
      subst h; exact hinv
  | updateEC σ dev st =>
    simp only [step] at h
    cases hu : updateEC c dev st s with
    | error f => simp [hu] at h
    | ok x =>
      obtain ⟨a, b, l⟩ := x
      simp only [hu, Option.some.injEq] at h
      subst h
      obtain ⟨hatt, t, hp, hp1⟩ := updateEC_timer c dev st a s b l hu
      simp only [timerInvariant, hp] at hinv
      simp only [timerInvariant, hp1, hatt]
      exact hinv
  | stop =>
    simp only [step] at h
    unfold stop at h
    cases hq : s.poller with
    | none => simp [hq] at h
    | some t =>
      simp [hq] at h
      subst h
      simp [timerInvariant]

/-- Along a run in which every `addEventSource` made by `setPowerState`
succeeds, the timer is never enabled while detached. -/
theorem timerInvariant_run (c : Consts) (es : List Event) :
    ∀ (s s1 : Driver),
      (∀ superRet addRet n, Event.setPowerState superRet addRet n ∈ es →
        addRet = kIOReturnSuccess) →
      timerInvariant s = true → run c s es = some s1 → timerInvariant s1 = true := by
  induction es with
  | nil =>
    intro s s1 _ hinv h
    simp only [run, Option.some.injEq] at h
    subst h; exact hinv
  | cons e rest ih =>
    intro s s1 hadd hinv h
    simp only [run] at h
    cases hst : step c s e with
    | none => simp [hst] at h
    | some s2 =>
      simp only [hst] at h
      have h2 := timerInvariant_step c s s2 e
        (fun a b n he => hadd a b n (by rw [he]; exact List.mem_cons_self _ _)) hinv hst
      exact ih s2 s1 (fun a b n hm => hadd a b n (List.mem_cons_of_mem _ hm)) h2 h

/-! ## The key table -/

theorem compare_le_iff (a b : VirtualSMCKeyValue) :
    VirtualSMCKeyValue.compare a b ≤ 0 ↔ a.key ≤ b.key := by
  unfold VirtualSMCKeyValue.compare
  by_cases h1 : a.key < b.key
  · rw [if_pos h1]
    constructor
    · intro _; exact Nat.le_of_lt h1
    · intro _; decide
  · rw [if_neg h1]
    by_cases h2 : a.key = b.key
    · rw [if_pos h2]
      constructor
      · intro _; exact Nat.le_of_eq h2
      · intro _; decide
    · rw [if_neg h2]
      constructor
      · intro h; exact absurd h (by decide)
      · intro h; exact absurd (Nat.lt_of_le_of_ne h h2) h1

theorem qsort_perm (data : List VirtualSMCKeyValue) : (qsort data).Perm data :=
  List.perm_insertionSort _ data

theorem qsort_sorted (data : List VirtualSMCKeyValue) :
    (qsort data).Pairwise (fun a b => a.key ≤ b.key) := by
  haveI : IsTotal VirtualSMCKeyValue (fun a b => VirtualSMCKeyValue.compare a b ≤ 0) :=
    ⟨fun a b => by
      rw [compare_le_iff, compare_le_iff]
      exact Nat.le_total a.key b.key⟩
  haveI : IsTrans VirtualSMCKeyValue (fun a b => VirtualSMCKeyValue.compare a b ≤ 0) :=
    ⟨fun a b d hab hbd => by
      rw [compare_le_iff] at *
      exact Nat.le_trans hab hbd⟩
  have h := List.sorted_insertionSort (fun a b => VirtualSMCKeyValue.compare a b ≤ 0) data
  exact List.Pairwise.imp (fun {a b} hab => (compare_le_iff a b).1 hab) h

/-- Sorting a table whose keys are pairwise distinct leaves the keys strictly
ascending. -/
theorem qsort_strict (data : List VirtualSMCKeyValue) (hnd : (keysOf data).Nodup) :
    (keysOf (qsort data)).Pairwise (fun a b => a < b) := by
  have hperm : (keysOf (qsort data)).Perm (keysOf data) := (qsort_perm data).map _
  have hnd2 : (keysOf (qsort data)).Nodup := hperm.nodup_iff.2 hnd
  have hle : (keysOf (qsort data)).Pairwise (fun a b => a ≤ b) := by
    unfold keysOf
    rw [List.pairwise_map]
    exact qsort_sorted data
  exact (List.Pairwise.and hle hnd2).imp (fun {a b} h => Nat.lt_of_le_of_ne h.1 h.2)

/-- The step `addECKeySp` appends at most its own key. -/
theorem addECKeySp_keys (c : Consts) (lookup : String → Option String) (key : SMC_KEY)
    (name : String) (type : SensorType) (acc : Driver × List Effect) :
    ∃ l, l.Sublist [key] ∧
      keysOf (addECKeySp c lookup key name type acc).1.vsmcPlugin
        = keysOf acc.1.vsmcPlugin ++ l := by
  unfold addECKeySp
  split
  · split
    · exact ⟨[], by simp, by simp⟩
    · exact ⟨[key], List.Sublist.refl _, by simp [keysOf]⟩
  · exact ⟨[], by simp, by simp⟩

theorem foldl_addECKeySp_keys (c : Consts) (lookup : String → Option String)
    (type : SensorType) (rows : List sensorPair) :
    ∀ acc : Driver × List Effect, ∃ l, l.Sublist (rowKeys rows) ∧
      keysOf (rows.foldl
        (fun acc pair => addECKeySp c lookup pair.key pair.name type acc) acc).1.vsmcPlugin
        = keysOf acc.1.vsmcPlugin ++ l := by
  induction rows with
  | nil => intro acc; exact ⟨[], by simp [rowKeys], by simp⟩
  | cons p rest ih =>
    intro acc
    simp only [List.foldl_cons]
    obtain ⟨l1, hs1, h1⟩ := addECKeySp_keys c lookup p.key p.name type acc
    obtain ⟨l2, hs2, h2⟩ := ih (addECKeySp c lookup p.key p.name type acc)
    refine ⟨l1 ++ l2, ?_, ?_⟩
    · have : rowKeys (p :: rest) = [p.key] ++ rowKeys rest := by simp [rowKeys]
      rw [this]
      exact List.Sublist.append hs1 hs2
    · rw [h2, h1, List.append_assoc]

/-- The keys of the table after `addVSMCKey`: those it had, followed by keys of
rows of the two tables, in row order. -/
theorem addVSMCKey_keys (c : Consts) (lookup : String → Option String)
    (tableDeciKelvin table : List sensorPair) (s : Driver) :
    ∃ l, l.Sublist (rowKeys (tableDeciKelvin ++ table)) ∧
      keysOf (addVSMCKey c lookup tableDeciKelvin table s).1.vsmcPlugin
        = keysOf s.vsmcPlugin ++ l := by
  unfold addVSMCKey
  split
  · exact ⟨[], by simp, by simp⟩
  · obtain ⟨l1, hs1, h1⟩ := foldl_addECKeySp_keys c lookup .atomicSpDeciKelvinKey
      tableDeciKelvin ({ s with ECSensorBase := s.sensorCount }, [])
    obtain ⟨l2, hs2, h2⟩ := foldl_addECKeySp_keys c lookup .atomicSpKey table
      (tableDeciKelvin.foldl
        (fun acc pair => addECKeySp c lookup pair.key pair.name .atomicSpDeciKelvinKey acc)
        ({ s with ECSensorBase := s.sensorCount }, []))
    refine ⟨l1 ++ l2, ?_, ?_⟩
    · have : rowKeys (tableDeciKelvin ++ table) = rowKeys tableDeciKelvin ++ rowKeys table := by
        simp [rowKeys]
      rw [this]
      exact List.Sublist.append hs1 hs2
    · simp only at h1 h2 ⊢
      rw [h2, h1, List.append_assoc]

/-- The keys of the two preset tables are pairwise distinct. -/
theorem preset_keys_nodup :
    (rowKeys (presetTemperatureDeciKelvin ++ presetTemperature)).Nodup := by
  decide

/-- What `start` leaves when it returns true: the table built by `addVSMCKey`,
sorted, and the log with the registration after the sort. -/
theorem start_true (c : Consts) (env : StartEnv) (tableDeciKelvin table : List sensorPair)
    (s : Driver) (hret : (start c env tableDeciKelvin table s).1 = true) :
    ∃ s2 : Driver, s2.vsmcPlugin = s.vsmcPlugin ∧
      (start c env tableDeciKelvin table s).2.1.vsmcPlugin
        = qsort (addVSMCKey c env.lookup tableDeciKelvin table s2).1.vsmcPlugin ∧
      (start c env tableDeciKelvin table s).2.2
        = ([.validateEC, .addEventSource env.addEventSource] ++
            (addVSMCKey c env.lookup tableDeciKelvin table s2).2) ++
          [.qsort,
           .setProperty "Status" (some (start c env tableDeciKelvin table s).2.1.vsmcPlugin.length),
           .registerHandler (keysOf (start c env tableDeciKelvin table s).2.1.vsmcPlugin)] ++
          [.setTimeoutMS c.POLLING_INTERVAL, .enable, .registerService] := by
  cases hs : env.superStart with
  | false => simp [start, hs] at hret
  | true =>
    cases hi : env.initPoller with
    | false => simp [start, hs, initPoller, hi] at hret
    | true =>
      by_cases ha : env.addEventSource = kIOReturnSuccess
      · refine ⟨{ s with awake := true, poller := some ⟨false, none⟩, attached := true },
          rfl, ?_, ?_⟩
        · simp [start, hs, initPoller, hi, ha]
        · simp [start, hs, initPoller, hi, ha, keysOf]
      · simp [start, hs, initPoller, hi, ha] at hret

/-- C5 (sort invariant).  The rows of the two preset tables are appended in any
order (any permutation of the catalog, split in any way over the two loops), to
a table whose keys are pairwise distinct and none of them a catalog key (the
empty table of a fresh driver is one).  After `start` returns true the keys of
`vsmcPlugin.data` are strictly ascending, and the handler was registered after
the sort, on the table in this state. -/
theorem start_sorted (c : Consts) (env : StartEnv) (tableDeciKelvin table : List sensorPair)
    (s : Driver)
    (hperm : (tableDeciKelvin ++ table).Perm (presetTemperatureDeciKelvin ++ presetTemperature))
    (hnd : (keysOf s.vsmcPlugin).Nodup)
    (hnew : ∀ k ∈ keysOf s.vsmcPlugin,
      k ∉ rowKeys (presetTemperatureDeciKelvin ++ presetTemperature))
    (hret : (start c env tableDeciKelvin table s).1 = true) :
    (keysOf (start c env tableDeciKelvin table s).2.1.vsmcPlugin).Pairwise (fun a b => a < b) ∧
    ∃ before after,
      (start c env tableDeciKelvin table s).2.2
        = before ++
          [.qsort,
           .setProperty "Status" (some (start c env tableDeciKelvin table s).2.1.vsmcPlugin.length),
           .registerHandler (keysOf (start c env tableDeciKelvin table s).2.1.vsmcPlugin)] ++
          after := by
  obtain ⟨s2, hs2, htab, hlog⟩ := start_true c env tableDeciKelvin table s hret
  refine ⟨?_, _, _, hlog⟩
  rw [htab]
  apply qsort_strict
  obtain ⟨l, hsub, hkeys⟩ := addVSMCKey_keys c env.lookup tableDeciKelvin table s2
  rw [hkeys, hs2]
  have hrows : (rowKeys (tableDeciKelvin ++ table)).Perm
      (rowKeys (presetTemperatureDeciKelvin ++ presetTemperature)) := hperm.map _
  have hndl : l.Nodup := (hrows.nodup_iff.2 preset_keys_nodup).sublist hsub
  rw [List.nodup_append]
  refine ⟨hnd, hndl, ?_⟩
  intro k hk1 hk2
  exact hnew k hk1 (hrows.subset (hsub.subset hk2))

/-- C5, on a run: a fresh driver started with the catalog in reverse order, all
in the second loop, with room for every row. -/
theorem start_sorted_witness :
    (keysOf (start ⟨2000, 32⟩ goodEnv []
        (presetTemperatureDeciKelvin ++ presetTemperature).reverse
        (fresh ⟨2000, 32⟩ true true)).2.1.vsmcPlugin).Pairwise (fun a b => a < b) ∧
    (start ⟨2000, 32⟩ goodEnv [] (presetTemperatureDeciKelvin ++ presetTemperature).reverse
        (fresh ⟨2000, 32⟩ true true)).2.1.vsmcPlugin.length = 18 :=
  ⟨(start_sorted ⟨2000, 32⟩ goodEnv [] (presetTemperatureDeciKelvin ++ presetTemperature).reverse
      (fresh ⟨2000, 32⟩ true true) (List.reverse_perm _) List.nodup_nil
      (fun _ hk => absurd hk (List.not_mem_nil _)) rfl).1,
   by decide⟩

end YogaSMC
